import Mathlib

/-!
# cpp-compilation-demo: arithmetic module, geometry module and `main`

A shallow embedding of `src/math_utils.cpp`, `src/geometry.cpp`, `src/main.cpp`
and the macros of `include/constants.h`.

* The C++ types `float` and `double` are IEEE 754 binary32 and binary64 with the
  default rounding mode (round to nearest, ties to even).  A value is a signed
  zero, a signed infinity, a NaN (payloads are not distinguished) or a finite
  number `(-1)^s * m * 2^e` kept in canonical form.
* The file-level `static int calculation_count` and the text written to standard
  output are threaded explicitly through a `State`.  `int` is a 32-bit two's
  complement integer; `calculation_count++` wraps around at `INT_MAX`, which is
  what the usual targets do (the C++ standard leaves signed overflow undefined).
* A call of `printf` is recorded as its format string together with its
  arguments after the default argument promotions (`float` to `double`).
-/

namespace CppDemo

/-! ## IEEE 754 binary floating point -/

/-- A binary interchange format: `prec` significand bits (hidden bit included),
finite values are below `2 ^ emax` in magnitude. -/
structure Format where
  prec : Nat
  emax : Int
deriving DecidableEq, Repr

/-- The format of the C++ type `float`. -/
def binary32 : Format := ⟨24, 128⟩

/-- The format of the C++ type `double`. -/
def binary64 : Format := ⟨53, 1024⟩

/-- Exponent of the unit in the last place of the subnormal numbers. -/
def Format.emin (f : Format) : Int := 3 - f.emax - f.prec

/-- Floating-point data: `finite s m e` stands for `(-1)^s * m * 2^e`.  The
values of a format `f` are the zeros, the infinities, the NaN and the
`finite s m e` with `0 < m < 2 ^ f.prec`, `f.emin ≤ e`, `e + f.prec ≤ f.emax`
and `2 ^ (f.prec - 1) ≤ m` unless `e = f.emin` (the subnormal numbers). -/
inductive FP where
  | zero (s : Bool)
  | infinity (s : Bool)
  | nan
  | finite (s : Bool) (m : Nat) (e : Int)
deriving DecidableEq, Repr

/-- Auxiliary loop of `bitLength`, halving `n` at most `fuel` times. -/
def bitLengthAux : Nat → Nat → Nat
  | 0, _ => 0
  | fuel + 1, n => if n = 0 then 0 else bitLengthAux fuel (n / 2) + 1

/-- Number of binary digits of `n`. -/
def bitLength (n : Nat) : Nat := bitLengthAux n n

/-- Significand and exponent of `(m + d) * 2^e` (`m ≠ 0`) rounded to `f.prec`
digits at an exponent not below `f.emin`, to nearest with ties to even, where
`d = 0` when `sticky` is `false` and `0 < d < 1` otherwise.  With `sticky` set,
`m` must have more than `f.prec` digits. -/
def roundSig (f : Format) (m : Nat) (e : Int) (sticky : Bool) : Nat × Int :=
  let e1 : Int := max (e + (bitLength m : Int) - (f.prec : Int)) f.emin
  if e1 ≤ e then (m * 2 ^ (e - e1).toNat, e1)
  else
    let sh : Nat := (e1 - e).toNat
    let q : Nat := m / 2 ^ sh
    let r : Nat := m % 2 ^ sh
    let half : Nat := 2 ^ (sh - 1)
    let up : Bool := decide (half < r) || (decide (r = half) && (sticky || decide (q % 2 = 1)))
    let q1 : Nat := if up then q + 1 else q
    if q1 = 2 ^ f.prec then (2 ^ (f.prec - 1), e1 + 1) else (q1, e1)

/-- Round `(-1)^s * (m + d) * 2^e` to the nearest value of format `f`, ties to
even (`d` as in `roundSig`): underflow gives a zero, overflow an infinity. -/
def roundEven (f : Format) (s : Bool) (m : Nat) (e : Int) (sticky : Bool) : FP :=
  if m = 0 then FP.zero s
  else
    let qe : Nat × Int := roundSig f m e sticky
    if qe.1 = 0 then FP.zero s
    else if f.emax < qe.2 + (f.prec : Int) then FP.infinity s
    else FP.finite s qe.1 qe.2

/-- Round the quotient `(-1)^s * (n / d) * 2^e` (with `d ≠ 0`) to format `f`. -/
def roundQuot (f : Format) (s : Bool) (n d : Nat) (e : Int) : FP :=
  let k : Nat := f.prec + 2 + bitLength d - bitLength n
  roundEven f s (n * 2 ^ k / d) (e - (k : Int)) (decide (n * 2 ^ k % d ≠ 0))

/-- Auxiliary loop of `isqrt`: decide the bits of the root from bit `b - 1` down. -/
def isqrtAux : Nat → Nat → Nat → Nat
  | 0, _, r => r
  | b + 1, n, r =>
    let c := r + 2 ^ b
    if c * c ≤ n then isqrtAux b n c else isqrtAux b n r

/-- Integer square root (rounded down). -/
def isqrt (n : Nat) : Nat := isqrtAux (bitLength n / 2 + 1) n 0

/-- Round the square root `sqrt (m * 2^e)` to format `f`. -/
def roundSqrt (f : Format) (m : Nat) (e : Int) : FP :=
  let k : Nat := f.prec + 2
  let m1 : Nat := if e % 2 = 0 then m * 4 ^ k else m * 2 * 4 ^ k
  let e1 : Int := if e % 2 = 0 then e else e - 1
  let r : Nat := isqrt m1
  roundEven f false r (e1 / 2 - (k : Int)) (decide (r * r ≠ m1))

namespace FP

/-- Unary minus. -/
def neg : FP → FP
  | zero s => zero (!s)
  | infinity s => infinity (!s)
  | nan => nan
  | finite s m e => finite (!s) m e

/-- The integer `(-1)^s * m`. -/
def signed (s : Bool) (m : Nat) : Int := if s then -(m : Int) else (m : Int)

/-- Addition `x + y`, rounded to format `f`. -/
def add (f : Format) : FP → FP → FP
  | nan, _ => nan
  | _, nan => nan
  | infinity s1, infinity s2 => if s1 = s2 then infinity s1 else nan
  | infinity s1, _ => infinity s1
  | _, infinity s2 => infinity s2
  | zero s1, zero s2 => if s1 = s2 then zero s1 else zero false
  | zero _, finite s2 m2 e2 => finite s2 m2 e2
  | finite s1 m1 e1, zero _ => finite s1 m1 e1
  | finite s1 m1 e1, finite s2 m2 e2 =>
    let e : Int := min e1 e2
    let v : Int := signed s1 (m1 * 2 ^ (e1 - e).toNat) + signed s2 (m2 * 2 ^ (e2 - e).toNat)
    if v = 0 then zero false else roundEven f (decide (v < 0)) v.natAbs e false

/-- Subtraction `x - y`, rounded to format `f`. -/
def sub (f : Format) (x y : FP) : FP := add f x (neg y)

/-- Multiplication `x * y`, rounded to format `f`. -/
def mul (f : Format) : FP → FP → FP
  | nan, _ => nan
  | _, nan => nan
  | infinity s1, infinity s2 => infinity (xor s1 s2)
  | infinity _, zero _ => nan
  | zero _, infinity _ => nan
  | infinity s1, finite s2 _ _ => infinity (xor s1 s2)
  | finite s1 _ _, infinity s2 => infinity (xor s1 s2)
  | zero s1, zero s2 => zero (xor s1 s2)
  | zero s1, finite s2 _ _ => zero (xor s1 s2)
  | finite s1 _ _, zero s2 => zero (xor s1 s2)
  | finite s1 m1 e1, finite s2 m2 e2 => roundEven f (xor s1 s2) (m1 * m2) (e1 + e2) false

/-- Division `x / y`, rounded to format `f`. -/
def div (f : Format) : FP → FP → FP
  | nan, _ => nan
  | _, nan => nan
  | infinity _, infinity _ => nan
  | infinity s1, zero s2 => infinity (xor s1 s2)
  | infinity s1, finite s2 _ _ => infinity (xor s1 s2)
  | zero s1, infinity s2 => zero (xor s1 s2)
  | finite s1 _ _, infinity s2 => zero (xor s1 s2)
  | zero _, zero _ => nan
  | zero s1, finite s2 _ _ => zero (xor s1 s2)
  | finite s1 _ _, zero s2 => infinity (xor s1 s2)
  | finite s1 m1 e1, finite s2 m2 e2 =>
    if m2 = 0 then nan else roundQuot f (xor s1 s2) m1 m2 (e1 - e2)

/-- Square root, rounded to format `f`. -/
def sqrt (f : Format) : FP → FP
  | nan => nan
  | zero s => zero s
  | infinity s => if s then nan else infinity false
  | finite s m e => if s then nan else roundSqrt f m e

/-- The comparison `x == y` of C++: a NaN equals nothing, the two zeros are equal. -/
def eq : FP → FP → Bool
  | zero _, zero _ => true
  | infinity s1, infinity s2 => s1 == s2
  | finite s1 m1 e1, finite s2 m2 e2 => s1 == s2 && m1 == m2 && e1 == e2
  | _, _ => false

/-- Conversion to format `f` (exact from `float` to `double`, rounding from
`double` to `float`). -/
def convert (f : Format) : FP → FP
  | nan => nan
  | zero s => zero s
  | infinity s => infinity s
  | finite s m e => roundEven f s m e false

/-- Conversion of an `int` to format `f`. -/
def ofInt (f : Format) (z : Int) : FP :=
  if z = 0 then zero false else roundEven f (decide (z < 0)) z.natAbs 0 false

/-- The value of the decimal literal `n / 10^d` in format `f`. -/
def ofDecimal (f : Format) (n d : Nat) : FP :=
  if n = 0 then zero false else roundQuot f false n (10 ^ d) 0

/-- The rational number a finite value stands for. -/
def toRat : FP → Option ℚ
  | zero _ => some 0
  | finite s m e => some ((signed s m : ℚ) * (2 : ℚ) ^ e)
  | _ => none

end FP

/-! ## The `int` counter and the output trace -/

/-- Largest value of the C++ type `int`. -/
def INT_MAX : Int := 2147483647

/-- Least value of the C++ type `int`. -/
def INT_MIN : Int := -2147483648

/-- Reduction of an integer to the 32-bit two's complement range. -/
def wrapInt (z : Int) : Int := (z + 2 ^ 31) % 2 ^ 32 - 2 ^ 31

/-- An argument handed to `printf` after the default argument promotions. -/
inductive Arg where
  | int (z : Int)
  | double (x : FP)
  | str (s : String)
deriving DecidableEq, Repr

/-- One call of `printf`: the format string and the arguments. -/
structure Printf where
  fmt : String
  args : List Arg
deriving DecidableEq, Repr

/-- The mutable state of the process: the file-level `static int
calculation_count` of `math_utils.cpp` and what was written to standard
output so far (oldest call first). -/
structure State where
  calculation_count : Int
  stdout : List Printf
deriving DecidableEq, Repr

/-- The state at program start: `static int calculation_count = 0`, nothing
written yet. -/
def State.initial : State := ⟨0, []⟩

/-- The counter holds a value of type `int`. -/
@[reducible] def State.inRange (s : State) : Prop :=
  INT_MIN ≤ s.calculation_count ∧ s.calculation_count ≤ INT_MAX

/-- The statement `printf(fmt, args...)`. -/
def printf (fmt : String) (args : List Arg) (s : State) : State :=
  { s with stdout := s.stdout ++ [⟨fmt, args⟩] }

/-- The statement `calculation_count++`. -/
def incr (s : State) : State :=
  { s with calculation_count := wrapInt (s.calculation_count + 1) }

/-! ## `include/constants.h` -/

/-- The macro `PI`, a literal of type `double`. -/
def PI : FP := FP.ofDecimal binary64 314159265358979323846 20

/-- The macro `SQUARE(x)`, that is `((x) * (x))`, at an operand of type `float`. -/
def SQUARE (x : FP) : FP := FP.mul binary32 x x

/-- The macro `SQUARE(x)` at an operand of type `int`. -/
def SQUARE_int (x : Int) : Int := wrapInt (x * x)

/-- The macro `DEBUG_PRINT(x)` when `DEBUG` is defined. -/
def DEBUG_PRINT (x : String) (s : State) : State :=
  printf "[DEBUG] %s\n" [Arg.str x] s

/-! ## `src/math_utils.cpp` -/

/-- The function `float squared(float x)`. -/
def squared (x : FP) (s : State) : FP × State := (SQUARE x, s)

/-- The function `float add(float a, float b)`. -/
def add (a b : FP) (s : State) : FP × State :=
  let s1 := incr s
  (FP.add binary32 a b, s1)

/-- The function `float subtract(float a, float b)`. -/
def subtract (a b : FP) (s : State) : FP × State :=
  let s1 := incr s
  (FP.sub binary32 a b, s1)

/-- The function `float multiply(float a, float b)`. -/
def multiply (a b : FP) (s : State) : FP × State :=
  let s1 := incr s
  (FP.mul binary32 a b, s1)

/-- The function `float divide(float a, float b)`.  In `b == 0` the `int` zero is
converted to `float`; `return 0` converts the `int` zero to `float`. -/
def divide (a b : FP) (s : State) : FP × State :=
  let s1 := incr s
  if FP.eq b (FP.ofInt binary32 0) then
    let s2 := printf "Error: Division by zero\n" [] s1
    (FP.ofInt binary32 0, s2)
  else
    (FP.div binary32 a b, s1)

/-- The function `int get_calculation_count()`. -/
def get_calculation_count (s : State) : Int × State := (s.calculation_count, s)

/-! ## `include/geometry.h` and `src/geometry.cpp` -/

/-- The struct `Point`. -/
structure Point where
  x : FP
  y : FP
deriving DecidableEq, Repr

/-- The class `Circle`. -/
structure Circle where
  radius : FP
  center : Point
deriving DecidableEq, Repr

/-- The method `void Point::print() const`. -/
def Point.print (p : Point) (s : State) : State :=
  printf "Point(%.2f, %.2f)\n"
    [Arg.double (FP.convert binary64 p.x), Arg.double (FP.convert binary64 p.y)] s

/-- The method `float Point::distance_to_origin() const`; `sqrt` at an argument
of type `float` is the `float` overload of `<math.h>`. -/
def Point.distance_to_origin (p : Point) : FP :=
  FP.sqrt binary32 (FP.add binary32 (SQUARE p.x) (SQUARE p.y))

/-- The method `float Circle::area() const`: `SQUARE(radius)` is computed in
`float`, the product with the `double` constant `PI` in `double`, and the
result is converted to the return type `float`. -/
def Circle.area (c : Circle) : FP :=
  FP.convert binary32 (FP.mul binary64 PI (FP.convert binary64 (SQUARE c.radius)))

/-- The method `float Circle::circumference() const`: `2 * PI * radius` is
computed from the left in `double` and converted to `float`. -/
def Circle.circumference (c : Circle) : FP :=
  FP.convert binary32
    (FP.mul binary64 (FP.mul binary64 (FP.ofInt binary64 2) PI) (FP.convert binary64 c.radius))

/-- The method `void Circle::print() const`. -/
def Circle.print (c : Circle) (s : State) : State :=
  let s1 := printf "Circle with radius %.2f at " [Arg.double (FP.convert binary64 c.radius)] s
  c.center.print s1

set_option linter.dupNamespace false in
/-- The constructor `Circle::Circle(float radius, float x, float y)` with the
default arguments `x = 0.0f`, `y = 0.0f` of its declaration in `geometry.h`. -/
def Circle.Circle (radius : FP) (x : FP := FP.ofDecimal binary32 0 1)
    (y : FP := FP.ofDecimal binary32 0 1) : Circle :=
  { radius := radius, center := { x := x, y := y } }

/-! ## `src/main.cpp` -/

/-- Promotion of a `float` argument of `printf` to `double`. -/
def promote (x : FP) : Arg := Arg.double (FP.convert binary64 x)

/-- The number a numeric `printf` argument stands for. -/
def Arg.toRat : Arg → Option ℚ
  | Arg.int z => some (z : ℚ)
  | Arg.double x => x.toRat
  | Arg.str _ => none

/-- The function `int main()`; `debug` tells whether `DEBUG` was defined at
compile time.  The result is the exit status and the final state. -/
def main (debug : Bool) (s0 : State) : Int × State :=
  let s := printf "C++ Compilation Demo\n" [] s0
  let s := printf "====================\n\n" [] s
  let s := printf "Value of PI: %.5f\n" [Arg.double PI] s
  let s := printf "SQUARE(5) = %d\n\n" [Arg.int (SQUARE_int 5)] s
  let s := printf "Math Operations:\n" [] s
  let a : FP := FP.ofDecimal binary32 100 1
  let b : FP := FP.ofDecimal binary32 50 1
  let s := printf "a = %.1f, b = %.1f\n" [promote a, promote b] s
  let r := add a b s
  let s := printf "a + b = %.1f\n" [promote r.1] r.2
  let r := subtract a b s
  let s := printf "a - b = %.1f\n" [promote r.1] r.2
  let r := multiply a b s
  let s := printf "a * b = %.1f\n" [promote r.1] r.2
  let r := divide a b s
  let s := printf "a / b = %.1f\n" [promote r.1] r.2
  let r := squared a s
  let s := printf "a² = %.1f\n" [promote r.1] r.2
  let n := get_calculation_count s
  let s := printf "Total calculations: %d\n\n" [Arg.int n.1] n.2
  let s := printf "Geometry - Point:\n" [] s
  let p : Point := { x := FP.ofDecimal binary32 30 1, y := FP.ofDecimal binary32 40 1 }
  let s := p.print s
  let s := printf "Distance to origin: %.2f\n\n" [promote p.distance_to_origin] s
  let s := printf "Geometry - Circle:\n" [] s
  let c : Circle :=
    Circle.Circle (FP.ofDecimal binary32 50 1) (FP.ofDecimal binary32 10 1) (FP.ofDecimal binary32 20 1)
  let s := c.print s
  let s := printf "Area: %.2f\n" [promote c.area] s
  let s := printf "Circumference: %.2f\n\n" [promote c.circumference] s
  let s := if debug then DEBUG_PRINT "This is a debug message" s else s
  (0, s)

/-! ## Sequences of calls of the arithmetic module -/

/-- One call of a function of `math_utils.h`. -/
inductive Call where
  | add (a b : FP)
  | subtract (a b : FP)
  | multiply (a b : FP)
  | divide (a b : FP)
  | squared (x : FP)
  | get_calculation_count
deriving DecidableEq, Repr

/-- The state after performing one call (the returned value is dropped). -/
def Call.exec (c : Call) (s : State) : State :=
  match c with
  | Call.add a b => (CppDemo.add a b s).2
  | Call.subtract a b => (CppDemo.subtract a b s).2
  | Call.multiply a b => (CppDemo.multiply a b s).2
  | Call.divide a b => (CppDemo.divide a b s).2
  | Call.squared x => (CppDemo.squared x s).2
  | Call.get_calculation_count => (CppDemo.get_calculation_count s).2

/-- The state after performing a sequence of calls, first call first. -/
def run (cs : List Call) (s : State) : State := cs.foldl (fun st c => c.exec st) s

/-- Whether a call is one of `add`, `subtract`, `multiply`, `divide`. -/
def Call.isArithmetic : Call → Bool
  | Call.add _ _ => true
  | Call.subtract _ _ => true
  | Call.multiply _ _ => true
  | Call.divide _ _ => true
  | Call.squared _ => false
  | Call.get_calculation_count => false

/-- Number of `add`, `subtract`, `multiply` and `divide` calls in a sequence. -/
def arithmeticCalls (cs : List Call) : Nat := (cs.filter Call.isArithmetic).length

/-! ## Checks of the arithmetic model -/

theorem bitLengthAux_zero (fuel : Nat) : bitLengthAux fuel 0 = 0 := by
  cases fuel <;> simp [bitLengthAux]

theorem bitLengthAux_spec (fuel n : Nat) (hf : n ≤ fuel) (hn : n ≠ 0) :
    n < 2 ^ bitLengthAux fuel n ∧ 2 ^ bitLengthAux fuel n ≤ 2 * n := by
  induction fuel generalizing n with
  | zero => omega
  | succ fuel ih =>
    simp only [bitLengthAux, if_neg hn]
    by_cases h2 : n / 2 = 0
    · have h1 : n = 1 := by omega
      subst h1
      simp [bitLengthAux_zero]
    · have hle : n / 2 ≤ fuel := by omega
      obtain ⟨ha, hb⟩ := ih (n / 2) hle h2
      rw [pow_succ]
      constructor <;> omega

/-- The number `bitLength n` is the number of binary digits of `n`. -/
theorem bitLength_spec (n : Nat) (hn : n ≠ 0) :
    n < 2 ^ bitLength n ∧ 2 ^ bitLength n ≤ 2 * n :=
  bitLengthAux_spec n n (Nat.le_refl n) hn

theorem isqrtAux_spec (b n r : Nat) (h1 : r * r ≤ n) (h2 : n < (r + 2 ^ b) * (r + 2 ^ b)) :
    isqrtAux b n r * isqrtAux b n r ≤ n ∧ n < (isqrtAux b n r + 1) * (isqrtAux b n r + 1) := by
  induction b generalizing r with
  | zero => simpa [isqrtAux] using ⟨h1, h2⟩
  | succ b ih =>
    simp only [isqrtAux]
    split
    · rename_i hc
      apply ih _ hc
      have : r + 2 ^ b + 2 ^ b = r + 2 ^ (b + 1) := by rw [pow_succ]; omega
      rw [this]; exact h2
    · rename_i hc
      exact ih _ h1 (by omega)

/-- The number `isqrt n` is the square root of `n` rounded down. -/
theorem isqrt_spec (n : Nat) :
    isqrt n * isqrt n ≤ n ∧ n < (isqrt n + 1) * (isqrt n + 1) := by
  unfold isqrt
  apply isqrtAux_spec
  · simp
  · by_cases hn : n = 0
    · subst hn; simp
    · have h := (bitLength_spec n hn).1
      have h3 : 2 ^ bitLength n ≤ 2 ^ (bitLength n / 2 + 1) * 2 ^ (bitLength n / 2 + 1) := by
        rw [← pow_add]
        apply Nat.pow_le_pow_right (by norm_num)
        omega
      simp only [zero_add]
      omega

theorem signed_mul_pow (s : Bool) (m k : Nat) (e1 e : Int) (hk : (k : Int) + e1 = e) :
    ((FP.signed s (m * 2 ^ k) : Int) : ℚ) * (2 : ℚ) ^ e1
      = ((FP.signed s m : Int) : ℚ) * (2 : ℚ) ^ e := by
  have h2 : (2 : ℚ) ^ e = (2 : ℚ) ^ k * (2 : ℚ) ^ e1 := by
    rw [← hk, zpow_add₀ (by norm_num : (2 : ℚ) ≠ 0), zpow_natCast]
  rw [h2]
  cases s <;> simp [FP.signed] <;> ring

/-- A number that fits the format is not changed by rounding. -/
theorem roundEven_exact (f : Format) (s : Bool) (m : Nat) (e : Int) (hm : m ≠ 0)
    (hp : bitLength m ≤ f.prec) (he : f.emin ≤ e) (hmax : e + (bitLength m : Int) ≤ f.emax)
    (hf : f.emin + (f.prec : Int) ≤ f.emax) :
    (roundEven f s m e false).toRat = some (((FP.signed s m : Int) : ℚ) * (2 : ℚ) ^ e) := by
  have h1 : max (e + (bitLength m : Int) - (f.prec : Int)) f.emin ≤ e := max_le (by omega) he
  have h2 : ¬ f.emax < max (e + (bitLength m : Int) - (f.prec : Int)) f.emin + (f.prec : Int) := by
    rcases max_choice (e + (bitLength m : Int) - (f.prec : Int)) f.emin with h | h <;>
      rw [h] <;> omega
  have h3 : m * 2 ^ (e - max (e + (bitLength m : Int) - (f.prec : Int)) f.emin).toNat ≠ 0 :=
    Nat.mul_ne_zero hm (by positivity)
  simp only [roundEven, roundSig, if_neg hm, if_pos h1, if_neg h2, if_neg h3, FP.toRat]
  congr 1
  apply signed_mul_pow
  rw [Int.toNat_of_nonneg (by omega)]
  omega

/-- An `int` of magnitude below `2^24` converts to `float` without error. -/
theorem ofInt_binary32_exact (z : Int) (h : z.natAbs < 2 ^ 24) :
    (FP.ofInt binary32 z).toRat = some (z : ℚ) := by
  unfold FP.ofInt
  by_cases hz : z = 0
  · simp [hz, FP.toRat]
  · rw [if_neg hz]
    have hm : z.natAbs ≠ 0 := by omega
    have hb : bitLength z.natAbs ≤ 24 := by
      have h2 := (bitLength_spec z.natAbs hm).2
      by_contra hc
      have h3 : 2 ^ 25 ≤ 2 ^ bitLength z.natAbs := Nat.pow_le_pow_right (by norm_num) (by omega)
      omega
    rw [roundEven_exact binary32 _ _ 0 hm hb (by decide) (by simp [binary32]; omega) (by decide)]
    congr 1
    by_cases hneg : z < 0
    · have : ((z.natAbs : Int)) = -z := by omega
      simp [FP.signed, hneg, this]
    · have : ((z.natAbs : Int)) = z := by omega
      simp [FP.signed, hneg, this]

/-- The rounded significand is within half a unit in the last place of the exact
number `(m + d) * 2^e`. -/
theorem roundSig_error (f : Format) (hp : 1 ≤ f.prec) (m : Nat) (e : Int) (sticky : Bool) (d : ℚ)
    (hd0 : 0 ≤ d) (hd1 : d < 1) (hs : sticky = true ↔ 0 < d)
    (hbits : sticky = true → f.prec < bitLength m) :
    |((roundSig f m e sticky).1 : ℚ) * (2 : ℚ) ^ (roundSig f m e sticky).2 - ((m : ℚ) + d) * (2 : ℚ) ^ e|
      ≤ (2 : ℚ) ^ (roundSig f m e sticky).2 / 2 := by
  have two_ne : (2 : ℚ) ≠ 0 := by norm_num
  have hpe : (0 : ℚ) < (2 : ℚ) ^ e := by positivity
  unfold roundSig
  by_cases h1 : max (e + (bitLength m : Int) - (f.prec : Int)) f.emin ≤ e
  · -- the input fits: nothing is rounded off
    have hns : sticky = false := by
      cases sticky
      · rfl
      · have := hbits rfl
        have h2 := le_max_left (e + (bitLength m : Int) - (f.prec : Int)) f.emin
        omega
    have hd : d = 0 := by
      rcases eq_or_lt_of_le hd0 with h | h
      · exact h.symm
      · rw [← hs] at h; rw [hns] at h; cases h
    simp only [if_pos h1]
    have hk : (((e - max (e + (bitLength m : Int) - (f.prec : Int)) f.emin).toNat : Nat) : Int)
        + max (e + (bitLength m : Int) - (f.prec : Int)) f.emin = e := by
      rw [Int.toNat_of_nonneg (by omega)]; omega
    have h2 : (2 : ℚ) ^ e = (2 : ℚ) ^ (e - max (e + (bitLength m : Int) - (f.prec : Int)) f.emin).toNat
        * (2 : ℚ) ^ max (e + (bitLength m : Int) - (f.prec : Int)) f.emin := by
      conv_lhs => rw [← hk]
      rw [zpow_add₀ two_ne, zpow_natCast]
    rw [hd]
    push_cast
    rw [h2]
    have : (m : ℚ) * 2 ^ (e - max (e + (bitLength m : Int) - (f.prec : Int)) f.emin).toNat
          * 2 ^ max (e + (bitLength m : Int) - (f.prec : Int)) f.emin
        - ((m : ℚ) + 0) * (2 ^ (e - max (e + (bitLength m : Int) - (f.prec : Int)) f.emin).toNat
          * 2 ^ max (e + (bitLength m : Int) - (f.prec : Int)) f.emin) = 0 := by ring
    rw [this, abs_zero]
    positivity
  · generalize max (e + (bitLength m : Int) - (f.prec : Int)) f.emin = e1 at h1 ⊢
    have hsh : (((e1 - e).toNat : Nat) : Int) = e1 - e := Int.toNat_of_nonneg (by omega)
    have hsh1 : 1 ≤ (e1 - e).toNat := by omega
    simp only [if_neg h1]
    generalize (e1 - e).toNat = sh at hsh hsh1 ⊢
    have hpow : (2 : ℚ) ^ e1 = (2 : ℚ) ^ sh * (2 : ℚ) ^ e := by
      have : e1 = (sh : Int) + e := by omega
      rw [this, zpow_add₀ two_ne, zpow_natCast]
    have hhalf : (2 : ℕ) ^ sh = 2 * 2 ^ (sh - 1) := by
      obtain ⟨k, rfl⟩ : ∃ k, sh = k + 1 := ⟨sh - 1, by omega⟩
      simp [pow_succ, Nat.mul_comm]
    have hdm : 2 ^ sh * (m / 2 ^ sh) + m % 2 ^ sh = m := Nat.div_add_mod m (2 ^ sh)
    have hr : m % 2 ^ sh < 2 ^ sh := Nat.mod_lt _ (by positivity)
    generalize m / 2 ^ sh = q at hdm ⊢
    generalize m % 2 ^ sh = r at hdm hr ⊢
    generalize 2 ^ (sh - 1) = half at hhalf ⊢
    have hmq : (m : ℚ) = (2 : ℚ) ^ sh * q + r := by exact_mod_cast hdm.symm
    have hhq : (2 : ℚ) ^ sh = 2 * (half : ℚ) := by exact_mod_cast hhalf
    have hrq : (r : ℚ) + 1 ≤ (2 : ℚ) ^ sh := by exact_mod_cast hr
    -- the rounded significand is within half a unit of the exact one
    have key : |(((if (decide (half < r) || (decide (r = half) &&
          (sticky || decide (q % 2 = 1)))) = true then q + 1 else q : ℕ) : ℚ)) * (2 : ℚ) ^ sh
        - ((m : ℚ) + d)| ≤ (2 : ℚ) ^ sh / 2 := by
      rw [abs_le]
      by_cases hup : (decide (half < r) || (decide (r = half) &&
          (sticky || decide (q % 2 = 1)))) = true
      · rw [if_pos hup]
        have hge : (half : ℚ) ≤ r := by
          simp only [Bool.or_eq_true, Bool.and_eq_true, decide_eq_true_eq] at hup
          rcases hup with h | ⟨h, _⟩
          · exact_mod_cast h.le
          · rw [h]
        push_cast
        constructor <;> nlinarith
      · rw [if_neg hup]
        have hle : (r : ℚ) + d ≤ half := by
          simp only [Bool.or_eq_true, Bool.and_eq_true, decide_eq_true_eq, not_or, not_and,
            not_lt] at hup
          obtain ⟨ha, hb⟩ := hup
          rcases Nat.lt_or_eq_of_le ha with h | h
          · have : (r : ℚ) + 1 ≤ half := by exact_mod_cast h
            linarith
          · have hst : ¬ sticky = true := (hb h).1
            have hd : d = 0 := by
              rcases eq_or_lt_of_le hd0 with h' | h'
              · exact h'.symm
              · exact absurd (hs.2 h') hst
            rw [hd, h]; simp
        constructor <;> nlinarith
    generalize (if (decide (half < r) || (decide (r = half) &&
          (sticky || decide (q % 2 = 1)))) = true then q + 1 else q : ℕ) = q1 at key ⊢
    have key2 : |(q1 : ℚ) * (2 : ℚ) ^ e1 - ((m : ℚ) + d) * (2 : ℚ) ^ e| ≤ (2 : ℚ) ^ e1 / 2 := by
      have : (q1 : ℚ) * (2 : ℚ) ^ e1 - ((m : ℚ) + d) * (2 : ℚ) ^ e
          = ((q1 : ℚ) * (2 : ℚ) ^ sh - ((m : ℚ) + d)) * (2 : ℚ) ^ e := by rw [hpow]; ring
      rw [this, abs_mul, abs_of_pos hpe, hpow]
      calc |(q1 : ℚ) * (2 : ℚ) ^ sh - ((m : ℚ) + d)| * (2 : ℚ) ^ e
          ≤ ((2 : ℚ) ^ sh / 2) * (2 : ℚ) ^ e := mul_le_mul_of_nonneg_right key hpe.le
        _ = (2 : ℚ) ^ sh * (2 : ℚ) ^ e / 2 := by ring
    split
    · rename_i hq
      have hp2 : (2 : ℕ) ^ f.prec = 2 ^ (f.prec - 1) * 2 := by
        obtain ⟨k, hk⟩ : ∃ k, f.prec = k + 1 := ⟨f.prec - 1, by omega⟩
        rw [hk]; simp [pow_succ]
      have he2 : (2 : ℚ) ^ (e1 + 1) = (2 : ℚ) ^ e1 * 2 := by
        rw [zpow_add₀ two_ne, zpow_one]
      have hval : (((2 : ℕ) ^ (f.prec - 1) : ℕ) : ℚ) * (2 : ℚ) ^ (e1 + 1) = (q1 : ℚ) * (2 : ℚ) ^ e1 := by
        rw [hq, hp2, he2]; push_cast; ring
      show |(((2 : ℕ) ^ (f.prec - 1) : ℕ) : ℚ) * (2 : ℚ) ^ (e1 + 1) - ((m : ℚ) + d) * (2 : ℚ) ^ e|
        ≤ (2 : ℚ) ^ (e1 + 1) / 2
      rw [hval, he2]
      have hpos : (0 : ℚ) < (2 : ℚ) ^ e1 := by positivity
      linarith
    · exact key2


/-- A finite result of `roundEven` keeps the sign and is within half a unit in
the last place of the exact number. -/
theorem roundEven_error (f : Format) (hp : 1 ≤ f.prec) (s : Bool) (m : Nat) (e : Int)
    (sticky : Bool) (d : ℚ) (hd0 : 0 ≤ d) (hd1 : d < 1) (hs : sticky = true ↔ 0 < d)
    (hbits : sticky = true → f.prec < bitLength m)
    (s1 : Bool) (q : Nat) (e1 : Int) (h : roundEven f s m e sticky = FP.finite s1 q e1) :
    s1 = s ∧ |(q : ℚ) * (2 : ℚ) ^ e1 - ((m : ℚ) + d) * (2 : ℚ) ^ e| ≤ (2 : ℚ) ^ e1 / 2 := by
  have key := roundSig_error f hp m e sticky d hd0 hd1 hs hbits
  unfold roundEven at h
  split at h
  · cases h
  · simp only at h
    split at h
    · cases h
    · split at h
      · cases h
      · injection h with h1 h2 h3
        subst h1 h2 h3
        exact ⟨rfl, key⟩

/-! ### Known values -/

set_option maxRecDepth 100000 in
/-- The literals `0.1f` and `0.1`, and `PI` as `double` and converted to `float`. -/
theorem known_literals :
    FP.ofDecimal binary32 1 1 = FP.finite false 13421773 (-27) ∧
    FP.ofDecimal binary64 1 1 = FP.finite false 7205759403792794 (-56) ∧
    PI = FP.finite false 7074237752028440 (-51) ∧
    FP.convert binary32 PI = FP.finite false 13176795 (-22) := by
  refine ⟨?_, ?_, ?_, ?_⟩ <;> decide

set_option maxRecDepth 100000 in
/-- Quotients and square roots that are not representable: `1/3`, `-1/3`,
`sqrt 2` in both formats. -/
theorem known_roundings :
    FP.div binary32 (FP.ofInt binary32 1) (FP.ofInt binary32 3) = FP.finite false 11184811 (-25) ∧
    FP.div binary32 (FP.ofInt binary32 (-1)) (FP.ofInt binary32 3)
      = FP.finite true 11184811 (-25) ∧
    FP.sqrt binary32 (FP.ofInt binary32 2) = FP.finite false 11863283 (-23) ∧
    FP.sqrt binary64 (FP.ofInt binary64 2) = FP.finite false 6369051672525773 (-52) := by
  refine ⟨?_, ?_, ?_, ?_⟩ <;> decide

set_option maxRecDepth 100000 in
/-- Ties go to the even significand: `16777217` and `16777219` as `float`. -/
theorem known_ties :
    FP.ofInt binary32 16777217 = FP.finite false 8388608 1 ∧
    FP.ofInt binary32 16777219 = FP.finite false 8388610 1 ∧
    FP.add binary32 (FP.ofInt binary32 16777216) (FP.ofInt binary32 1)
      = FP.ofInt binary32 16777216 := by
  refine ⟨?_, ?_, ?_⟩ <;> decide

set_option maxRecDepth 100000 in
/-- Overflow, underflow, signed zeros and the invalid operations. -/
theorem known_special_cases :
    FP.add binary32 (FP.finite false 16777215 104) (FP.finite false 16777215 104)
      = FP.infinity false ∧
    FP.div binary32 (FP.finite false 1 (-149)) (FP.ofInt binary32 2) = FP.zero false ∧
    FP.div binary32 (FP.finite false 3 (-149)) (FP.ofInt binary32 2) = FP.finite false 2 (-149) ∧
    FP.sub binary32 (FP.ofInt binary32 5) (FP.ofInt binary32 5) = FP.zero false ∧
    FP.sub binary32 (FP.zero true) (FP.zero false) = FP.zero true ∧
    FP.add binary32 (FP.zero true) (FP.zero false) = FP.zero false ∧
    FP.div binary32 (FP.ofInt binary32 1) (FP.zero true) = FP.infinity true ∧
    FP.div binary32 (FP.zero false) (FP.zero false) = FP.nan ∧
    FP.sub binary32 (FP.infinity false) (FP.infinity false) = FP.nan ∧
    FP.mul binary32 (FP.infinity false) (FP.zero false) = FP.nan ∧
    FP.sqrt binary32 (FP.ofInt binary32 (-1)) = FP.nan ∧
    FP.eq FP.nan FP.nan = false ∧
    FP.eq (FP.zero true) (FP.zero false) = true := by
  refine ⟨?_, ?_, ?_, ?_, ?_, ?_, ?_, ?_, ?_, ?_, ?_, ?_, ?_⟩ <;> decide

/-! ## Auxiliary facts -/

theorem wrapInt_of_inRange (z : Int) (h1 : INT_MIN ≤ z) (h2 : z ≤ INT_MAX) : wrapInt z = z := by
  unfold wrapInt; unfold INT_MIN at h1; unfold INT_MAX at h2; omega

theorem wrapInt_wrapInt_succ (z : Int) : wrapInt (wrapInt z + 1) = wrapInt (z + 1) := by
  unfold wrapInt; omega

theorem wrapInt_inRange (z : Int) : INT_MIN ≤ wrapInt z ∧ wrapInt z ≤ INT_MAX := by
  unfold wrapInt INT_MIN INT_MAX; omega

/-- Below `INT_MAX` the statement `calculation_count++` adds one. -/
theorem incr_of_lt (s : State) (hlo : INT_MIN ≤ s.calculation_count)
    (hhi : s.calculation_count < INT_MAX) :
    incr s = ⟨s.calculation_count + 1, s.stdout⟩ := by
  have h : wrapInt (s.calculation_count + 1) = s.calculation_count + 1 := by
    apply wrapInt_of_inRange
    · unfold INT_MIN at *; omega
    · unfold INT_MAX at *; omega
  simp [incr, h]

/-- At `INT_MAX` the statement `calculation_count++` yields `INT_MIN`. -/
theorem incr_at_INT_MAX (out : List Printf) : incr ⟨INT_MAX, out⟩ = ⟨INT_MIN, out⟩ := by
  simp [incr, wrapInt, INT_MAX, INT_MIN]

/-- The zero of type `int` converts to the positive zero. -/
theorem ofInt_zero (f : Format) : FP.ofInt f 0 = FP.zero false := by
  simp [FP.ofInt]

/-- The literal `0.0f` (or `0.0`) is the positive zero. -/
theorem ofDecimal_zero (f : Format) (d : Nat) : FP.ofDecimal f 0 d = FP.zero false := by
  simp [FP.ofDecimal]

/-- The test `b == 0` succeeds on both zeros. -/
theorem eq_zero_of_zero (sg : Bool) : FP.eq (FP.zero sg) (FP.ofInt binary32 0) = true := by
  simp [ofInt_zero, FP.eq]

/-- The test `b == 0` fails on everything that is not a zero. -/
theorem eq_zero_of_ne (b : FP) (hb : ∀ sg, b ≠ FP.zero sg) :
    FP.eq b (FP.ofInt binary32 0) = false := by
  rw [ofInt_zero]
  cases b with
  | zero sg => exact absurd rfl (hb sg)
  | infinity sg => rfl
  | nan => rfl
  | finite sg m e => rfl

/-- The condition `b != 0` of C++ holds exactly when `b` is not a zero. -/
theorem eq_zero_false_iff (b : FP) :
    FP.eq b (FP.ofInt binary32 0) = false ↔ ∀ sg, b ≠ FP.zero sg := by
  constructor
  · intro h sg hb
    rw [hb, eq_zero_of_zero] at h
    cases h
  · exact eq_zero_of_ne b

/-! ## The arithmetic module -/

/-- C1, as stated, fails: with `a = 1.0f`, `b = 1.0f` (so `b != 0`) and the
counter at `INT_MAX`, `divide(a, b)` leaves the counter at `INT_MIN` instead of
increasing it by 1. -/
theorem divide_nonzero_counter_at_INT_MAX :
    FP.eq (FP.ofDecimal binary32 10 1) (FP.ofInt binary32 0) = false ∧
    State.inRange ⟨INT_MAX, []⟩ ∧
    divide (FP.ofDecimal binary32 10 1) (FP.ofDecimal binary32 10 1) ⟨INT_MAX, []⟩
      = (FP.ofDecimal binary32 10 1, ⟨INT_MIN, []⟩) ∧
    ¬ (divide (FP.ofDecimal binary32 10 1) (FP.ofDecimal binary32 10 1) ⟨INT_MAX, []⟩).2.calculation_count
      = (State.mk INT_MAX []).calculation_count + 1 := by
  refine ⟨?_, ?_, ?_, ?_⟩ <;> decide

/-- C1, amended: for every pair of floats `(a, b)` with `b` not a zero and every
counter state below `INT_MAX`, `divide(a, b)` returns `a / b`, increases the
calculation counter by exactly 1 and writes no diagnostic message. -/
theorem divide_nonzero (a b : FP) (s : State) (hb : ∀ sg, b ≠ FP.zero sg)
    (hlo : INT_MIN ≤ s.calculation_count) (hhi : s.calculation_count < INT_MAX) :
    (divide a b s).1 = FP.div binary32 a b ∧
    (divide a b s).2.calculation_count = s.calculation_count + 1 ∧
    (divide a b s).2.stdout = s.stdout := by
  simp [divide, eq_zero_of_ne b hb, incr_of_lt s hlo hhi]

/-- Witness of `divide_nonzero`: `divide(10.0f, 5.0f)` from the initial state. -/
theorem divide_nonzero_witness :
    (∀ sg, FP.ofDecimal binary32 50 1 ≠ FP.zero sg) ∧
    INT_MIN ≤ State.initial.calculation_count ∧
    State.initial.calculation_count < INT_MAX ∧
    (divide (FP.ofDecimal binary32 100 1) (FP.ofDecimal binary32 50 1) State.initial).1
      = FP.div binary32 (FP.ofDecimal binary32 100 1) (FP.ofDecimal binary32 50 1) ∧
    (divide (FP.ofDecimal binary32 100 1) (FP.ofDecimal binary32 50 1) State.initial).2.calculation_count
      = State.initial.calculation_count + 1 ∧
    (divide (FP.ofDecimal binary32 100 1) (FP.ofDecimal binary32 50 1) State.initial).2.stdout
      = State.initial.stdout :=
  have hb : ∀ sg, FP.ofDecimal binary32 50 1 ≠ FP.zero sg := by intro sg; cases sg <;> decide
  ⟨hb, by decide, by decide,
    divide_nonzero (FP.ofDecimal binary32 100 1) (FP.ofDecimal binary32 50 1) State.initial hb
      (by decide) (by decide)⟩

/-- C2, as stated, fails: with `a = 1.0f` and the counter at `INT_MAX`,
`divide(a, 0)` returns 0 and writes the diagnostic but leaves the counter at
`INT_MIN` instead of increasing it by 1. -/
theorem divide_by_zero_counter_at_INT_MAX :
    State.inRange ⟨INT_MAX, []⟩ ∧
    divide (FP.ofDecimal binary32 10 1) (FP.ofInt binary32 0) ⟨INT_MAX, []⟩
      = (FP.zero false, ⟨INT_MIN, [⟨"Error: Division by zero\n", []⟩]⟩) ∧
    ¬ (divide (FP.ofDecimal binary32 10 1) (FP.ofInt binary32 0) ⟨INT_MAX, []⟩).2.calculation_count
      = (State.mk INT_MAX []).calculation_count + 1 := by
  refine ⟨?_, ?_, ?_⟩ <;> decide

/-- C2, amended: for every float `a`, either zero as divisor and every counter
state below `INT_MAX`, `divide(a, 0)` returns 0 (the positive zero), writes the
diagnostic `Error: Division by zero` to standard output and increases the
calculation counter by exactly 1. -/
theorem divide_by_zero (a : FP) (sg : Bool) (s : State)
    (hlo : INT_MIN ≤ s.calculation_count) (hhi : s.calculation_count < INT_MAX) :
    (divide a (FP.zero sg) s).1 = FP.ofInt binary32 0 ∧
    (divide a (FP.zero sg) s).1 = FP.zero false ∧
    (divide a (FP.zero sg) s).2.stdout = s.stdout ++ [⟨"Error: Division by zero\n", []⟩] ∧
    (divide a (FP.zero sg) s).2.calculation_count = s.calculation_count + 1 := by
  have hz : FP.eq (FP.zero sg) (FP.ofInt binary32 0) = true := eq_zero_of_zero sg
  rw [ofInt_zero] at hz
  simp [divide, hz, incr_of_lt s hlo hhi, printf, ofInt_zero]

/-- Witness of `divide_by_zero`: `divide(10.0f, 0)` from the initial state. -/
theorem divide_by_zero_witness :
    INT_MIN ≤ State.initial.calculation_count ∧
    State.initial.calculation_count < INT_MAX ∧
    (divide (FP.ofDecimal binary32 100 1) (FP.zero false) State.initial).1 = FP.ofInt binary32 0 ∧
    (divide (FP.ofDecimal binary32 100 1) (FP.zero false) State.initial).1 = FP.zero false ∧
    (divide (FP.ofDecimal binary32 100 1) (FP.zero false) State.initial).2.stdout
      = State.initial.stdout ++ [⟨"Error: Division by zero\n", []⟩] ∧
    (divide (FP.ofDecimal binary32 100 1) (FP.zero false) State.initial).2.calculation_count
      = State.initial.calculation_count + 1 :=
  ⟨by decide, by decide,
    divide_by_zero (FP.ofDecimal binary32 100 1) false State.initial (by decide) (by decide)⟩

/-- C3: for every float `x` and every counter state, `squared(x)` returns
`x * x` and leaves the calculation counter (and the whole state) unchanged. -/
theorem squared_spec (x : FP) (s : State) :
    (squared x s).1 = FP.mul binary32 x x ∧
    (squared x s).2.calculation_count = s.calculation_count ∧
    (squared x s).2 = s := by
  simp [squared, SQUARE]

/-- C4, as stated, fails: with the counter at `INT_MAX`, each of `add`,
`subtract` and `multiply` (here at `-1.0f` and `0`) leaves the counter at
`INT_MIN` instead of increasing it by 1. -/
theorem add_subtract_multiply_counter_at_INT_MAX :
    State.inRange ⟨INT_MAX, []⟩ ∧
    (add (FP.neg (FP.ofDecimal binary32 10 1)) (FP.zero false) ⟨INT_MAX, []⟩).2.calculation_count
      = INT_MIN ∧
    (subtract (FP.neg (FP.ofDecimal binary32 10 1)) (FP.zero false) ⟨INT_MAX, []⟩).2.calculation_count
      = INT_MIN ∧
    (multiply (FP.neg (FP.ofDecimal binary32 10 1)) (FP.zero false) ⟨INT_MAX, []⟩).2.calculation_count
      = INT_MIN ∧
    ¬ (add (FP.neg (FP.ofDecimal binary32 10 1)) (FP.zero false) ⟨INT_MAX, []⟩).2.calculation_count
      = (State.mk INT_MAX []).calculation_count + 1 := by
  refine ⟨?_, ?_, ?_, ?_, ?_⟩ <;> decide

/-- C4, amended: for every pair of floats `(a, b)`, negative and zero operands
included, and every counter state below `INT_MAX`, `add(a, b)` returns `a + b`,
`subtract(a, b)` returns `a - b` and `multiply(a, b)` returns `a * b`, and each
call increases the calculation counter by exactly 1 (and writes nothing). -/
theorem add_subtract_multiply (a b : FP) (s : State)
    (hlo : INT_MIN ≤ s.calculation_count) (hhi : s.calculation_count < INT_MAX) :
    add a b s = (FP.add binary32 a b, ⟨s.calculation_count + 1, s.stdout⟩) ∧
    subtract a b s = (FP.sub binary32 a b, ⟨s.calculation_count + 1, s.stdout⟩) ∧
    multiply a b s = (FP.mul binary32 a b, ⟨s.calculation_count + 1, s.stdout⟩) := by
  simp [add, subtract, multiply, incr_of_lt s hlo hhi]

/-- Witness of `add_subtract_multiply`: the operands `-2.5f` and `0.0f` with the
counter at 7. -/
theorem add_subtract_multiply_witness :
    INT_MIN ≤ (State.mk 7 []).calculation_count ∧
    (State.mk 7 []).calculation_count < INT_MAX ∧
    add (FP.neg (FP.ofDecimal binary32 25 1)) (FP.ofDecimal binary32 0 1) ⟨7, []⟩
      = (FP.add binary32 (FP.neg (FP.ofDecimal binary32 25 1)) (FP.ofDecimal binary32 0 1),
          ⟨(State.mk 7 []).calculation_count + 1, (State.mk 7 []).stdout⟩) ∧
    subtract (FP.neg (FP.ofDecimal binary32 25 1)) (FP.ofDecimal binary32 0 1) ⟨7, []⟩
      = (FP.sub binary32 (FP.neg (FP.ofDecimal binary32 25 1)) (FP.ofDecimal binary32 0 1),
          ⟨(State.mk 7 []).calculation_count + 1, (State.mk 7 []).stdout⟩) ∧
    multiply (FP.neg (FP.ofDecimal binary32 25 1)) (FP.ofDecimal binary32 0 1) ⟨7, []⟩
      = (FP.mul binary32 (FP.neg (FP.ofDecimal binary32 25 1)) (FP.ofDecimal binary32 0 1),
          ⟨(State.mk 7 []).calculation_count + 1, (State.mk 7 []).stdout⟩) :=
  ⟨by decide, by decide,
    add_subtract_multiply (FP.neg (FP.ofDecimal binary32 25 1)) (FP.ofDecimal binary32 0 1)
      ⟨7, []⟩ (by decide) (by decide)⟩

/-- Representative values, negative and zero operands included: the results of
`add`, `subtract` and `multiply` are the exact sum, difference and product. -/
theorem add_subtract_multiply_values :
    (add (FP.neg (FP.ofDecimal binary32 25 1)) (FP.zero false) State.initial).1.toRat
      = some (-2.5 + 0) ∧
    (subtract (FP.zero false) (FP.ofDecimal binary32 50 1) State.initial).1.toRat
      = some (0 - 5) ∧
    (multiply (FP.neg (FP.ofDecimal binary32 30 1)) (FP.neg (FP.ofDecimal binary32 40 1))
      State.initial).1.toRat = some (-3 * -4) ∧
    (multiply (FP.neg (FP.ofDecimal binary32 30 1)) (FP.zero false) State.initial).1.toRat
      = some (-3 * 0) := by
  have h1 : (add (FP.neg (FP.ofDecimal binary32 25 1)) (FP.zero false) State.initial).1
      = FP.finite true 10485760 (-22) := by decide
  have h2 : (subtract (FP.zero false) (FP.ofDecimal binary32 50 1) State.initial).1
      = FP.finite true 10485760 (-21) := by decide
  have h3 : (multiply (FP.neg (FP.ofDecimal binary32 30 1)) (FP.neg (FP.ofDecimal binary32 40 1))
      State.initial).1 = FP.finite false 12582912 (-20) := by decide
  have h4 : (multiply (FP.neg (FP.ofDecimal binary32 30 1)) (FP.zero false) State.initial).1
      = FP.zero true := by decide
  rw [h1, h2, h3, h4]
  norm_num [FP.toRat, FP.signed]

/-! ## The calculation counter along sequences of calls -/

/-- Effect of one call on the counter. -/
theorem exec_count (c : Call) (s : State) :
    (c.exec s).calculation_count
      = if c.isArithmetic then wrapInt (s.calculation_count + 1) else s.calculation_count := by
  cases c with
  | add a b => rfl
  | subtract a b => rfl
  | multiply a b => rfl
  | divide a b =>
    simp only [Call.exec, divide, Call.isArithmetic, if_true]
    split <;> rfl
  | squared x => rfl
  | get_calculation_count => rfl

theorem run_cons (c : Call) (cs : List Call) (s : State) :
    run (c :: cs) s = run cs (c.exec s) := rfl

theorem arithmeticCalls_cons (c : Call) (cs : List Call) :
    arithmeticCalls (c :: cs) = (if c.isArithmetic then 1 else 0) + arithmeticCalls cs := by
  unfold arithmeticCalls
  cases h : c.isArithmetic <;> simp [List.filter, h, Nat.add_comm]

/-- The counter stays in the range of `int`. -/
theorem run_inRange (cs : List Call) (s : State) (h : s.inRange) : (run cs s).inRange := by
  induction cs generalizing s with
  | nil => exact h
  | cons c cs ih =>
    rw [run_cons]
    apply ih
    unfold State.inRange
    rw [exec_count]
    split
    · exact wrapInt_inRange _
    · exact h

/-- Modulo `2^32` the counter advances by the number of arithmetic calls. -/
theorem run_count_wrap (cs : List Call) (s : State) :
    wrapInt (run cs s).calculation_count
      = wrapInt (s.calculation_count + (arithmeticCalls cs : Int)) := by
  induction cs generalizing s with
  | nil => simp [run, arithmeticCalls]
  | cons c cs ih =>
    rw [run_cons, ih, exec_count, arithmeticCalls_cons]
    split
    · push_cast
      unfold wrapInt
      omega
    · simp

/-- From the initial state the counter is the number of arithmetic calls reduced
to the range of `int`. -/
theorem run_count_initial (cs : List Call) :
    (run cs State.initial).calculation_count = wrapInt (arithmeticCalls cs : Int) := by
  have h1 := run_inRange cs State.initial (by decide)
  have h2 := run_count_wrap cs State.initial
  rw [wrapInt_of_inRange _ h1.1 h1.2] at h2
  simpa [State.initial] using h2

theorem arithmeticCalls_replicate_add (n : Nat) (a b : FP) :
    arithmeticCalls (List.replicate n (Call.add a b)) = n := by
  induction n with
  | zero => rfl
  | succ n ih => rw [List.replicate_succ, arithmeticCalls_cons, ih]; simp [Call.isArithmetic, Nat.add_comm]

/-- After `n` calls of `add(a, b)` from the initial state the accessor returns
`n` reduced to the range of `int`. -/
theorem count_after_adds (n : Nat) (a b : FP) :
    (get_calculation_count (run (List.replicate n (Call.add a b)) State.initial)).1
      = wrapInt (n : Int) := by
  unfold get_calculation_count
  simp only
  rw [run_count_initial, arithmeticCalls_replicate_add]

/-- C5, as stated, fails: after `2^31 = 2147483648` calls of `add(0.0f, 0.0f)`
from the initial state, `get_calculation_count()` returns `INT_MIN`, not the
number of calls. -/
theorem count_after_2147483648_adds :
    (get_calculation_count
        (run (List.replicate 2147483648 (Call.add (FP.zero false) (FP.zero false))) State.initial)).1
      = INT_MIN ∧
    ¬ (get_calculation_count
        (run (List.replicate 2147483648 (Call.add (FP.zero false) (FP.zero false))) State.initial)).1
      = (arithmeticCalls
          (List.replicate 2147483648 (Call.add (FP.zero false) (FP.zero false))) : Int) := by
  rw [count_after_adds, arithmeticCalls_replicate_add]
  constructor <;> decide

/-- C5, amended: starting from the initial state (counter 0), after every finite
sequence of calls to `add`, `subtract`, `multiply`, `divide`, `squared` and
`get_calculation_count` with arbitrary arguments that contains at most `INT_MAX`
calls of `add`/`subtract`/`multiply`/`divide`, `get_calculation_count()` returns
exactly the number of those calls; calls to `squared` and to
`get_calculation_count` itself do not change the counter. -/
theorem count_after_calls (cs : List Call) (h : (arithmeticCalls cs : Int) ≤ INT_MAX) :
    (get_calculation_count (run cs State.initial)).1 = (arithmeticCalls cs : Int) ∧
    (∀ x s, (Call.exec (Call.squared x) s).calculation_count = s.calculation_count) ∧
    (∀ s, (Call.exec Call.get_calculation_count s).calculation_count = s.calculation_count) := by
  refine ⟨?_, fun _ _ => rfl, fun _ => rfl⟩
  unfold get_calculation_count
  simp only
  rw [run_count_initial]
  apply wrapInt_of_inRange
  · unfold INT_MIN; omega
  · exact h

/-- Witness of `count_after_calls`: a sequence with four arithmetic calls, one of
them a division by zero, mixed with `squared` and `get_calculation_count`. -/
theorem count_after_calls_witness :
    (arithmeticCalls
      [Call.add (FP.ofDecimal binary32 100 1) (FP.ofDecimal binary32 50 1),
       Call.squared (FP.ofDecimal binary32 100 1),
       Call.get_calculation_count,
       Call.divide (FP.ofDecimal binary32 100 1) (FP.zero false),
       Call.subtract (FP.zero true) (FP.ofDecimal binary32 50 1),
       Call.squared FP.nan,
       Call.multiply (FP.infinity false) (FP.zero false)] : Int) ≤ INT_MAX ∧
    (get_calculation_count (run
      [Call.add (FP.ofDecimal binary32 100 1) (FP.ofDecimal binary32 50 1),
       Call.squared (FP.ofDecimal binary32 100 1),
       Call.get_calculation_count,
       Call.divide (FP.ofDecimal binary32 100 1) (FP.zero false),
       Call.subtract (FP.zero true) (FP.ofDecimal binary32 50 1),
       Call.squared FP.nan,
       Call.multiply (FP.infinity false) (FP.zero false)] State.initial)).1 = 4 :=
  ⟨by decide,
   (count_after_calls
      [Call.add (FP.ofDecimal binary32 100 1) (FP.ofDecimal binary32 50 1),
       Call.squared (FP.ofDecimal binary32 100 1),
       Call.get_calculation_count,
       Call.divide (FP.ofDecimal binary32 100 1) (FP.zero false),
       Call.subtract (FP.zero true) (FP.ofDecimal binary32 50 1),
       Call.squared FP.nan,
       Call.multiply (FP.infinity false) (FP.zero false)] (by decide)).1⟩

/-! ## The run of `main` -/

set_option maxRecDepth 100000 in
/-- Everything `main` writes, and its result, when started in the initial state
without `DEBUG`. -/
theorem main_trace :
    main false State.initial = (0, ⟨4, [
      ⟨"C++ Compilation Demo\n", []⟩,
      ⟨"====================\n\n", []⟩,
      ⟨"Value of PI: %.5f\n", [Arg.double (FP.finite false 7074237752028440 (-51))]⟩,
      ⟨"SQUARE(5) = %d\n\n", [Arg.int 25]⟩,
      ⟨"Math Operations:\n", []⟩,
      ⟨"a = %.1f, b = %.1f\n", [Arg.double (FP.finite false 5629499534213120 (-49)),
        Arg.double (FP.finite false 5629499534213120 (-50))]⟩,
      ⟨"a + b = %.1f\n", [Arg.double (FP.finite false 8444249301319680 (-49))]⟩,
      ⟨"a - b = %.1f\n", [Arg.double (FP.finite false 5629499534213120 (-50))]⟩,
      ⟨"a * b = %.1f\n", [Arg.double (FP.finite false 7036874417766400 (-47))]⟩,
      ⟨"a / b = %.1f\n", [Arg.double (FP.finite false 4503599627370496 (-51))]⟩,
      ⟨"a² = %.1f\n", [Arg.double (FP.finite false 7036874417766400 (-46))]⟩,
      ⟨"Total calculations: %d\n\n", [Arg.int 4]⟩,
      ⟨"Geometry - Point:\n", []⟩,
      ⟨"Point(%.2f, %.2f)\n", [Arg.double (FP.finite false 6755399441055744 (-51)),
        Arg.double (FP.finite false 4503599627370496 (-50))]⟩,
      ⟨"Distance to origin: %.2f\n\n", [Arg.double (FP.finite false 5629499534213120 (-50))]⟩,
      ⟨"Geometry - Circle:\n", []⟩,
      ⟨"Circle with radius %.2f at ", [Arg.double (FP.finite false 5629499534213120 (-50))]⟩,
      ⟨"Point(%.2f, %.2f)\n", [Arg.double (FP.finite false 4503599627370496 (-52)),
        Arg.double (FP.finite false 4503599627370496 (-51))]⟩,
      ⟨"Area: %.2f\n", [Arg.double (FP.finite false 5526748347236352 (-46))]⟩,
      ⟨"Circumference: %.2f\n\n", [Arg.double (FP.finite false 8842797033455616 (-48))]⟩]⟩) := by
  decide

/-- With `DEBUG` defined `main` writes one more line at the very end. -/
theorem main_debug (s : State) :
    main true s = ((main false s).1, DEBUG_PRINT "This is a debug message" (main false s).2) := rfl

/-- C6: the fixed sequence `main` performs on `a = 10.0` and `b = 5.0` from the
initial state (`add`, `subtract`, `multiply`, `divide`, `squared`, then
`get_calculation_count`) hands to `printf` the results 15, 5, 50, 2 and 100 and
a total of exactly 4 calculations, `squared` being excluded; this holds with and
without `DEBUG`, and the counter is 4 at the end. -/
theorem main_math_operations (debug : Bool) :
    (((main debug State.initial).2.stdout.drop 5).take 7).map
        (fun p => (p.fmt, p.args.map Arg.toRat))
      = [("a = %.1f, b = %.1f\n", [some 10, some 5]),
         ("a + b = %.1f\n", [some 15]),
         ("a - b = %.1f\n", [some 5]),
         ("a * b = %.1f\n", [some 50]),
         ("a / b = %.1f\n", [some 2]),
         ("a² = %.1f\n", [some 100]),
         ("Total calculations: %d\n\n", [some 4])] ∧
    (main debug State.initial).2.calculation_count = 4 ∧
    (main debug State.initial).1 = 0 := by
  cases debug
  · rw [main_trace]
    norm_num [Arg.toRat, FP.toRat, FP.signed]
  · rw [main_debug, main_trace]
    norm_num [Arg.toRat, FP.toRat, FP.signed, DEBUG_PRINT, printf]

/-! ## The geometry module -/

/-- The value of `Point{3, 4}.distance_to_origin()`. -/
theorem distance_3_4_value :
    (Point.mk (FP.ofDecimal binary32 30 1) (FP.ofDecimal binary32 40 1)).distance_to_origin
      = FP.finite false 10485760 (-21) := by
  decide

set_option maxRecDepth 100000 in
/-- The square root of `3*3 + 4*4` taken in `double` and converted to `float`. -/
theorem distance_3_4_double :
    FP.convert binary32 (FP.sqrt binary64 (FP.convert binary64
        (FP.add binary32 (SQUARE (FP.ofDecimal binary32 30 1)) (SQUARE (FP.ofDecimal binary32 40 1)))))
      = FP.ofDecimal binary32 50 1 := by
  decide

/-- C7: `Point{3, 4}.distance_to_origin()` equals exactly 5.0, as an instance of
`distance_to_origin()` returning `sqrt(x*x + y*y)` for the point's coordinates.
The last part: taking the square root in `double` and converting the result to
`float` gives the same value. -/
theorem point_3_4_distance_to_origin :
    (∀ p : Point, p.distance_to_origin
      = FP.sqrt binary32 (FP.add binary32 (FP.mul binary32 p.x p.x) (FP.mul binary32 p.y p.y))) ∧
    (Point.mk (FP.ofDecimal binary32 30 1) (FP.ofDecimal binary32 40 1)).distance_to_origin
      = FP.ofDecimal binary32 50 1 ∧
    (Point.mk (FP.ofDecimal binary32 30 1) (FP.ofDecimal binary32 40 1)).distance_to_origin.toRat
      = some 5 ∧
    FP.convert binary32 (FP.sqrt binary64 (FP.convert binary64
        (FP.add binary32 (SQUARE (FP.ofDecimal binary32 30 1)) (SQUARE (FP.ofDecimal binary32 40 1)))))
      = FP.ofDecimal binary32 50 1 := by
  refine ⟨fun _ => rfl, by decide, ?_, distance_3_4_double⟩
  rw [distance_3_4_value]
  norm_num [FP.toRat, FP.signed]

set_option maxRecDepth 100000 in
/-- The values of `area()` and `circumference()` of `Circle(5, 1, 2)`; the
product `PI * radius * radius` taken from the left in `double` gives the same
area. -/
theorem circle_5_1_2_values :
    (Circle.Circle (FP.ofDecimal binary32 50 1) (FP.ofDecimal binary32 10 1)
      (FP.ofDecimal binary32 20 1)).area = FP.finite false 10294371 (-17) ∧
    (Circle.Circle (FP.ofDecimal binary32 50 1) (FP.ofDecimal binary32 10 1)
      (FP.ofDecimal binary32 20 1)).circumference = FP.finite false 16470993 (-19) ∧
    FP.convert binary32 (FP.mul binary64
        (FP.mul binary64 PI (FP.convert binary64 (FP.ofDecimal binary32 50 1)))
        (FP.convert binary64 (FP.ofDecimal binary32 50 1)))
      = FP.finite false 10294371 (-17) := by
  refine ⟨?_, ?_, ?_⟩ <;> decide

/-- C8: for `Circle(5, 1, 2)`, `area()` is within 0.005 of 78.54 and
`circumference()` is within 0.005 of 31.42, so that 78.54 and 31.42 are the
two-decimal numbers nearest to them (what `%.2f` prints); neither method
depends on the center coordinates.  The area is also what `PI * radius * radius`
gives when multiplied from the left in `double`. -/
theorem circle_5_1_2_area_circumference :
    (∃ v : ℚ,
      (Circle.Circle (FP.ofDecimal binary32 50 1) (FP.ofDecimal binary32 10 1)
        (FP.ofDecimal binary32 20 1)).area.toRat = some v ∧
      |v - 78.54| < 0.005 ∧
      ∀ n : ℤ, |v - (n : ℚ) / 100| ≤ 0.005 → n = 7854) ∧
    (∃ v : ℚ,
      (Circle.Circle (FP.ofDecimal binary32 50 1) (FP.ofDecimal binary32 10 1)
        (FP.ofDecimal binary32 20 1)).circumference.toRat = some v ∧
      |v - 31.42| < 0.005 ∧
      ∀ n : ℤ, |v - (n : ℚ) / 100| ≤ 0.005 → n = 3142) ∧
    (∀ r x y x1 y1 : FP,
      (Circle.Circle r x y).area = (Circle.Circle r x1 y1).area ∧
      (Circle.Circle r x y).circumference = (Circle.Circle r x1 y1).circumference) ∧
    (Circle.Circle (FP.ofDecimal binary32 50 1) (FP.ofDecimal binary32 10 1)
        (FP.ofDecimal binary32 20 1)).area
      = FP.convert binary32 (FP.mul binary64
          (FP.mul binary64 PI (FP.convert binary64 (FP.ofDecimal binary32 50 1)))
          (FP.convert binary64 (FP.ofDecimal binary32 50 1))) := by
  refine ⟨⟨10294371 / 131072, ?_, ?_, ?_⟩, ⟨16470993 / 524288, ?_, ?_, ?_⟩,
    fun _ _ _ _ _ => ⟨rfl, rfl⟩, ?_⟩
  · rw [circle_5_1_2_values.1]
    norm_num [FP.toRat, FP.signed]
  · rw [abs_lt]
    constructor <;> norm_num
  · intro n hn
    rw [abs_le] at hn
    have h1 : (7853 : ℚ) < n := by norm_num at hn; linarith [hn.1, hn.2]
    have h2 : (n : ℚ) < 7855 := by norm_num at hn; linarith [hn.1, hn.2]
    have h3 : (7853 : ℤ) < n := by exact_mod_cast h1
    have h4 : n < (7855 : ℤ) := by exact_mod_cast h2
    omega
  · rw [circle_5_1_2_values.2.1]
    norm_num [FP.toRat, FP.signed]
  · rw [abs_lt]
    constructor <;> norm_num
  · intro n hn
    rw [abs_le] at hn
    have h1 : (3141 : ℚ) < n := by norm_num at hn; linarith [hn.1, hn.2]
    have h2 : (n : ℚ) < 3143 := by norm_num at hn; linarith [hn.1, hn.2]
    have h3 : (3141 : ℤ) < n := by exact_mod_cast h1
    have h4 : n < (3143 : ℤ) := by exact_mod_cast h2
    omega
  · rw [circle_5_1_2_values.1, circle_5_1_2_values.2.2]

/-- C9: for every radius (negative values included, nothing is validated) and
every `x`, `y`, `Circle(radius, x, y)` stores exactly that radius and the center
`Point` `(x, y)`; with the coordinates omitted, `Circle(radius)` has center
`(0, 0)`.  The last part is the instance `Circle(-1.0f)`. -/
theorem circle_constructor (radius x y : FP) :
    (Circle.Circle radius x y).radius = radius ∧
    (Circle.Circle radius x y).center = Point.mk x y ∧
    (Circle.Circle radius).radius = radius ∧
    (Circle.Circle radius).center = Point.mk (FP.zero false) (FP.zero false) ∧
    (Circle.Circle (FP.neg (FP.ofDecimal binary32 10 1))).radius.toRat = some (-1) := by
  refine ⟨rfl, rfl, rfl, by simp [Circle.Circle, ofDecimal_zero], ?_⟩
  have h : (Circle.Circle (FP.neg (FP.ofDecimal binary32 10 1))).radius
      = FP.finite true 8388608 (-23) := by decide
  rw [h]
  norm_num [FP.toRat, FP.signed]

/-! ## The ambiguous zero of `divide` -/

/-- C10: the return value of `divide` does not reveal whether the divisor was
zero: with `a = 0.0f` and `b = 1.0f` (so `b != 0`), `divide(a, b)` returns the
same value 0 that `divide(a, 0)` returns, and both calls leave the same counter
value, in every state. -/
theorem divide_zero_result_ambiguous (s : State) :
    FP.eq (FP.ofDecimal binary32 10 1) (FP.ofInt binary32 0) = false ∧
    (FP.ofDecimal binary32 10 1).toRat = some 1 ∧
    (divide (FP.ofDecimal binary32 0 1) (FP.ofDecimal binary32 10 1) s).1 = FP.ofInt binary32 0 ∧
    (divide (FP.ofDecimal binary32 0 1) (FP.ofInt binary32 0) s).1 = FP.ofInt binary32 0 ∧
    (divide (FP.ofDecimal binary32 0 1) (FP.ofDecimal binary32 10 1) s).1
      = (divide (FP.ofDecimal binary32 0 1) (FP.ofInt binary32 0) s).1 ∧
    (divide (FP.ofDecimal binary32 0 1) (FP.ofDecimal binary32 10 1) s).2.calculation_count
      = (divide (FP.ofDecimal binary32 0 1) (FP.ofInt binary32 0) s).2.calculation_count := by
  have h1 : FP.eq (FP.ofDecimal binary32 10 1) (FP.ofInt binary32 0) = false := by decide
  have h0 : FP.eq (FP.ofInt binary32 0) (FP.ofInt binary32 0) = true := by decide
  have hd : FP.div binary32 (FP.ofDecimal binary32 0 1) (FP.ofDecimal binary32 10 1)
      = FP.ofInt binary32 0 := by decide
  have hv : FP.ofDecimal binary32 10 1 = FP.finite false 8388608 (-23) := by decide
  refine ⟨h1, ?_, ?_, ?_, ?_, ?_⟩
  · rw [hv]; norm_num [FP.toRat, FP.signed]
  · simp only [divide, h1]; exact hd
  · simp only [divide, h0]; rfl
  · simp only [divide, h1, h0]; exact hd
  · simp only [divide, h1, h0]; rfl

end CppDemo
